import Mathlib

/-
Verification of the Moodify playlist-generation pipeline
(src/src/app/api/generatePlaylist/route.ts).

Conventions of the shallow embedding:
* JavaScript numbers are modelled as exact rationals (ℚ).  All the scoring
  formulas of the route use small decimal constants, additions,
  multiplications, absolute values and divisions, which ℚ represents
  exactly; NaN-valued fields are modelled as absent (`Option.none`), which
  is what the source's `has(x) = typeof x === 'number' && !Number.isNaN(x)`
  checks implement.
* JS `Map`/`Set` objects are modelled as association lists / lists of keys.
* `Array.prototype.sort` with a comparator is mandated by ECMAScript to be
  stable; a stable sort with respect to a total preorder is unique, so it
  is embedded as `List.insertionSort` (Mathlib's insertion sort is stable).
* External HTTP calls are modelled by explicit outcome parameters:
  `Except Unit HttpResp` is a response (`.ok`) or a thrown network error
  (`.error`), the latter also covering the timeout-abort path of
  `fetchWithRetry` (real time is not modelled).
-/

/-- The `Track` type of the route (route.ts lines 5-15). -/
structure Track where
  title : String
  artist : String
  cover : String
  previewUrl : Option String
  spotifyUrl : Option String
  spotifyId : Option String
  artistIds : List String
  primaryArtistId : Option String
  matchReason : Option String
deriving DecidableEq

/-- `AudioFeatures` (route.ts line 732): all four numeric fields are
optional; a NaN/absent field is `none`. -/
structure AudioFeatures where
  id : String
  valence : Option ℚ
  energy : Option ℚ
  danceability : Option ℚ
  tempo : Option ℚ
deriving DecidableEq

/-- `MoodTargets` (route.ts line 326): valence/energy/danceability are
required numbers, tempo is optional. -/
structure MoodTargets where
  valence : ℚ
  energy : ℚ
  danceability : ℚ
  tempo : Option ℚ
deriving DecidableEq

/-- `Partial<MoodTargets>`: every field optional (used for the vibe-signal
target overrides). -/
structure TargetOverrides where
  valence : Option ℚ
  energy : Option ℚ
  danceability : Option ℚ
  tempo : Option ℚ
deriving DecidableEq

/-- The empty override record (`const targets: Partial<MoodTargets> = {}`). -/
def TargetOverrides.empty : TargetOverrides :=
  { valence := none, energy := none, danceability := none, tempo := none }

/-- `Object.keys(targets).length` test of route.ts line 540: true when no
field has been set. -/
def TargetOverrides.isEmpty (t : TargetOverrides) : Bool :=
  t.valence.isNone && t.energy.isNone && t.danceability.isNone && t.tempo.isNone

/-- `TasteProfile` (route.ts line 422); the JS `Set`s are lists of keys. -/
structure TasteProfile where
  artistNames : List String
  artistIds : List String
  genres : List String
  tags : List String
  topTrackIds : List String
  savedTrackIds : List String
  recentTrackIds : List String
deriving DecidableEq

/-- The `language` payload field: 'any' | 'english' | 'urdu'. -/
inductive Lang where
  | any : Lang
  | english : Lang
  | urdu : Lang
deriving DecidableEq

/-! ### String helpers (JS `String.prototype.includes` and the literal
alternation regexes of the route). -/

/-- Substring test on character lists: does `pat` occur contiguously in `l`? -/
def containsList (pat : List Char) : List Char → Bool
  | [] => pat.isEmpty
  | c :: cs => pat.isPrefixOf (c :: cs) || containsList pat cs

/-- JS `s.includes(pat)`. -/
def containsSub (s pat : String) : Bool :=
  containsList pat.toList s.toList

/-- Character-wise `toLowerCase` (a definitionally-reducing version of
`String.toLower`, which maps `Char.toLower` over the string). -/
def lowerStr (s : String) : String :=
  String.mk (s.toList.map Char.toLower)

/-- Whitespace trim on both ends (the normalization the specification
prescribes for track identity). -/
def trimStr (s : String) : String :=
  String.mk (((s.toList.dropWhile Char.isWhitespace).reverse.dropWhile Char.isWhitespace).reverse)

/-- A regex alternation of string literals `/(p1|p2|...)/.test(s)`. -/
def containsAny (s : String) (pats : List String) : Bool :=
  pats.any (fun p => containsSub s p)

/-- Case-insensitive literal alternation `/(p1|...)/i.test(s)` for
lower-case patterns. -/
def containsAnyLC (s : String) (pats : List String) : Bool :=
  containsAny (lowerStr s) pats

/-- `clamp01` (route.ts line 82). -/
def clamp01 (x : ℚ) : ℚ := max 0 (min 1 x)

/-- `getMoodTargets` (route.ts lines 327-336): `mood.toLowerCase()` then a
chain of `includes` checks. -/
def getMoodTargets (mood : String) : MoodTargets :=
  let m := lowerStr mood
  if containsSub m "happy" then ⟨0.8, 0.7, 0.6, some 110⟩
  else if containsSub m "sad" then ⟨0.2, 0.3, 0.3, some 80⟩
  else if containsSub m "chill" then ⟨0.4, 0.4, 0.4, some 90⟩
  else if containsSub m "energetic" then ⟨0.7, 0.9, 0.7, some 125⟩
  else if containsSub m "romantic" then ⟨0.6, 0.5, 0.5, some 95⟩
  else if containsSub m "angry" then ⟨0.3, 0.9, 0.5, some 135⟩
  else ⟨0.6, 0.6, 0.6, some 110⟩

/-- Resolution of the targets at the top of `scoreByFormula`
(route.ts lines 86-92): `customTargets?.x ?? base.x` per field. -/
def resolveTargets (mood : String) (custom : Option TargetOverrides) : MoodTargets :=
  let base := getMoodTargets mood
  { valence := ((custom.bind TargetOverrides.valence).getD base.valence)
    energy := ((custom.bind TargetOverrides.energy).getD base.energy)
    danceability := ((custom.bind TargetOverrides.danceability).getD base.danceability)
    tempo := match custom.bind TargetOverrides.tempo with
      | some x => some x
      | none => base.tempo }

/-! ### Language heuristics (route.ts lines 219-250). -/

/-- Arabic/Urdu script block test `[؀-ۿ]`. -/
def isArabicChar (c : Char) : Bool :=
  0x600 ≤ c.toNat && c.toNat ≤ 0x6FF

/-- ASCII Latin letter `[A-Za-z]`. -/
def isLatinLetter (c : Char) : Bool :=
  c.isAlpha

/-- `hasSouthAsianGenre` (route.ts lines 219-222): the genre list is joined
with a bar and matched case-insensitively against literal markers
(`hind(i|ustani)` is the two literals hindi / hindustani). -/
def hasSouthAsianGenre (genres : List String) : Bool :=
  let G := lowerStr (String.intercalate "|" genres)
  containsAny G ["urdu", "pakistan", "pakistani", "qawwali", "ghazal",
    "coke studio", "punjabi", "bollywood", "hindi", "hindustani", "desi", "sufi"]

/-- The religious/cultural deny-list regex of `isEnglishStrict`
(route.ts line 227); `islam(ic)?` is the literal islam. -/
def hasReligiousMarker (hay : String) : Bool :=
  containsAnyLC hay ["quran", "surah", "ayat", "azan", "adhaan", "nasheed",
    "dua", "supplication", "islam", "qari", "qawwali", "ghazal", "hamd", "naat"]

/-- `isEnglishStrict` (route.ts lines 224-238). -/
def isEnglishStrict (title artist : String) (artistGenres : List String) : Bool :=
  let hay := title ++ " " ++ artist
  if hasReligiousMarker hay then false
  else if hasSouthAsianGenre artistGenres then false
  else
    let latinCount := (hay.toList.filter isLatinLetter).length
    let arabicCount := (hay.toList.filter isArabicChar).length
    let total := latinCount + arabicCount
    if total = 0 then false
    else if 0 < arabicCount then false
    else decide ((7 : ℚ) / 10 ≤ (latinCount : ℚ) / (total : ℚ))

/-- The positive Urdu/Pakistani marker list of `isUrduStrict`
(route.ts lines 246-248). -/
def urduMarkers : List String :=
  ["qawwali", "ghazal", "coke studio", "pakistan", "urdu"]

/-- `isUrduStrict` (route.ts lines 240-250). -/
def isUrduStrict (title artist : String) (artistGenres : List String) : Bool :=
  let hay := title ++ " " ++ artist
  if hay.toList.any isArabicChar then true
  else if hasSouthAsianGenre artistGenres then true
  else if containsAnyLC hay urduMarkers then true
  else if hay.toList.any isLatinLetter && ! containsAnyLC hay urduMarkers then false
  else false

/-! ### The scoring formula `scoreByFormula` (route.ts lines 84-138). -/

/-- Lookup in the `Map<string, AudioFeatures>` of fetched features. -/
def lookupFeat (features : List (String × AudioFeatures)) (id : String) : Option AudioFeatures :=
  (features.find? (fun p => p.1 == id)).map Prod.snd

/-- Lookup in the `Map<string, string[]>` of artist genres. -/
def lookupGenres (agm : List (String × List String)) (id : String) : List String :=
  ((agm.find? (fun p => p.1 == id)).map Prod.snd).getD []

/-- `getGenres(tr)` followed by the lower-casing map of route.ts line 121. -/
def lowerGenres (agm : List (String × List String)) (tr : Track) : List String :=
  (tr.artistIds.flatMap (fun id => lookupGenres agm id)).map lowerStr

/-- The valence distance term `dv` (route.ts line 105): absolute distance
when the feature is a number, else the fixed 0.6 penalty. -/
def distValence (f : AudioFeatures) (t : MoodTargets) : ℚ :=
  match f.valence with
  | some v => |v - t.valence|
  | none => 0.6

/-- The energy distance term `de` (route.ts line 106). -/
def distEnergy (f : AudioFeatures) (t : MoodTargets) : ℚ :=
  match f.energy with
  | some e => |e - t.energy|
  | none => 0.6

/-- The danceability distance term `dd` (route.ts line 107). -/
def distDanceability (f : AudioFeatures) (t : MoodTargets) : ℚ :=
  match f.danceability with
  | some d => |d - t.danceability|
  | none => 0.6

/-- The tempo distance term `dtempo` (route.ts line 108):
`has(f.tempo!) && t.tempo ? Math.abs(f.tempo - t.tempo) / 60 : 1.0`.
The truthiness test on `t.tempo` makes a zero target behave like an
absent one. -/
def distTempo (f : AudioFeatures) (t : MoodTargets) : ℚ :=
  match f.tempo, t.tempo with
  | some ft, some tt => if tt = 0 then 1 else |ft - tt| / 60
  | _, _ => 1

/-- The `moodMatch` sub-score (route.ts lines 102-111): 0.5 when the track
has no feature record, otherwise 1 minus the weighted distance, clamped. -/
def moodMatchOf (features : List (String × AudioFeatures)) (t : MoodTargets) (tr : Track) : ℚ :=
  let id := tr.spotifyId.getD ""
  match (if id ≠ "" then lookupFeat features id else none) with
  | none => 0.5
  | some f =>
      let dist := distValence f t * 0.35 + distEnergy f t * 0.35 +
        distDanceability f t * 0.2 + distTempo f t * 0.1
      clamp01 (1 - dist)

/-- The library-membership tier `inLib` (route.ts lines 114-117):
top 1.0, else saved 0.9, else recent 0.7, else 0; 0 for an empty id. -/
def libMembership (taste : TasteProfile) (id : String) : ℚ :=
  if id = "" then 0
  else if id ∈ taste.topTrackIds then 1
  else if id ∈ taste.savedTrackIds then 0.9
  else if id ∈ taste.recentTrackIds then 0.7
  else 0

/-- The artist affinity `artistAff` (route.ts lines 118-120): 1.0 when the
primary artist is in taste, else 0.7 when any contributing artist is,
else 0. -/
def artistAffinity (taste : TasteProfile) (tr : Track) : ℚ :=
  let pa := tr.primaryArtistId.getD ""
  if pa ≠ "" ∧ pa ∈ taste.artistIds then 1
  else if tr.artistIds.any (fun aid => decide (aid ∈ taste.artistIds)) then 0.7
  else 0

/-- The genre overlap ratio (route.ts lines 121-123), computed on the
lower-cased genre tokens against the lower-cased taste genres. -/
def genreRatio (taste : TasteProfile) (g : List String) : ℚ :=
  let tasteSet := taste.genres.map lowerStr
  let overlap := (g.filter (fun gg => decide (gg ∈ tasteSet))).length
  if g.length = 0 then 0 else (overlap : ℚ) / (g.length : ℚ)

/-- The `tasteMatch` sub-score (route.ts line 124). -/
def tasteMatchOf (taste : TasteProfile) (agm : List (String × List String)) (tr : Track) : ℚ :=
  clamp01 (0.5 * libMembership taste (tr.spotifyId.getD "") +
    0.3 * artistAffinity taste tr + 0.2 * genreRatio taste (lowerGenres agm tr))

/-- The `langMatch` sub-score (route.ts lines 127-131): always 1 under no
constraint, else the binary strict classifier on the lower-cased genres. -/
def languageMatchOf (lang : Lang) (agm : List (String × List String)) (tr : Track) : ℚ :=
  match lang with
  | Lang.any => 1
  | Lang.english => if isEnglishStrict tr.title tr.artist (lowerGenres agm tr) then 1 else 0
  | Lang.urdu => if isUrduStrict tr.title tr.artist (lowerGenres agm tr) then 1 else 0

/-- The final per-track score (route.ts line 133). -/
def trackScore (features : List (String × AudioFeatures)) (taste : TasteProfile)
    (t : MoodTargets) (lang : Lang) (agm : List (String × List String)) (tr : Track) : ℚ :=
  0.5 * tasteMatchOf taste agm tr + 0.4 * moodMatchOf features t tr +
    0.1 * languageMatchOf lang agm tr

/-- Descending order on (track, score) pairs: the sort comparator
`(a, b) => b.score - a.score` of route.ts line 136. -/
def byScoreDesc (a b : Track × ℚ) : Prop := b.2 ≤ a.2

instance : DecidableRel byScoreDesc := fun a b =>
  inferInstanceAs (Decidable (b.2 ≤ a.2))

instance : IsTotal (Track × ℚ) byScoreDesc :=
  ⟨fun a b => le_total b.2 a.2⟩

instance : IsTrans (Track × ℚ) byScoreDesc :=
  ⟨fun _ _ _ h1 h2 => le_trans h2 h1⟩

/-- `scoreByFormula` (route.ts lines 84-138): score every track, sort the
(track, score) pairs descending with the engine's stable sort, return the
tracks.  A stable sort by a total preorder is unique, so the mandated
stable `Array.prototype.sort` is embedded as insertion sort. -/
def scoreByFormula (tracks : List Track) (features : List (String × AudioFeatures))
    (taste : TasteProfile) (mood : String) (lang : Lang)
    (agm : List (String × List String)) (custom : Option TargetOverrides) : List Track :=
  let t := resolveTargets mood custom
  let out := tracks.map (fun tr => (tr, trackScore features taste t lang agm tr))
  (List.insertionSort byScoreDesc out).map Prod.fst

/-! ### Hard mood gate and coverage (route.ts lines 166-194). -/

/-- `passesHardForMood` (route.ts lines 166-179): the per-mood threshold
predicate, evaluated on the lower-cased mood key; unknown keys pass. -/
def passesHardForMood (mood : String) (f : AudioFeatures) : Bool :=
  let key := lowerStr mood
  if key = "happy" then
    match f.valence, f.energy, f.tempo with
    | some v, some e, some tp => decide (0.6 ≤ v) && decide (0.5 ≤ e) && decide (100 ≤ tp)
    | _, _, _ => false
  else if key = "sad" then
    match f.valence, f.energy, f.tempo with
    | some v, some e, some tp => decide (v ≤ 0.4) && decide (e ≤ 0.6) && decide (tp ≤ 110)
    | _, _, _ => false
  else if key = "chill" then
    match f.energy, f.tempo with
    | some e, some tp => decide (e ≤ 0.55) && decide (tp ≤ 105)
    | _, _ => false
  else if key = "energetic" then
    match f.energy, f.tempo with
    | some e, some tp => decide (0.75 ≤ e) && decide (118 ≤ tp)
    | _, _ => false
  else if key = "romantic" then
    match f.valence, f.energy with
    | some v, some e => decide (0.5 ≤ v) && decide (v ≤ 0.85) && decide (e ≤ 0.65)
    | _, _ => false
  else if key = "focus" then
    match f.energy, f.tempo with
    | some e, some tp => decide (e ≤ 0.5) && decide (60 ≤ tp) && decide (tp ≤ 110)
    | _, _ => false
  else true

/-- One track counts toward coverage when it has a non-empty id and its
fetched feature record passes the hard gate (route.ts lines 188-192). -/
def trackPassesGate (feats : List (String × AudioFeatures)) (mood : String) (t : Track) : Bool :=
  let id := t.spotifyId.getD ""
  match (if id ≠ "" then lookupFeat feats id else none) with
  | some f => passesHardForMood mood f
  | none => false

/-- `assessMoodCoverage` (route.ts lines 182-194), with the audio-features
fetch replaced by a lookup into the provider's map `feats` (the fetch
requests exactly the track ids, so the lookups agree). -/
def assessMoodCoverage (feats : List (String × AudioFeatures)) (tracks : List Track)
    (mood : String) : ℚ :=
  if tracks.isEmpty then 1
  else
    let ids := (tracks.map (fun t => t.spotifyId.getD "")).filter (fun s => s ≠ "")
    if ids.isEmpty then 0
    else ((tracks.countP (trackPassesGate feats mood)) : ℚ) / (tracks.length : ℚ)

/-- The pool-expansion trigger of the POST handler (route.ts line 1362):
`coverage < 0.35 && (personal.topArtistIds?.length || 0) > 0`. -/
def relatedExpansionTriggered (coverage : ℚ) (topArtistCount : Nat) : Bool :=
  decide (coverage < 0.35) && decide (0 < topArtistCount)

/-! ### The retry helper `fetchWithRetry` (route.ts lines 280-299). -/

/-- An HTTP response: `res.ok` is true exactly for 2xx statuses. -/
structure HttpResp where
  status : Nat
  tracks : List Track
deriving DecidableEq

/-- JS `Response.ok`. -/
def respOk (r : HttpResp) : Bool :=
  200 ≤ r.status && r.status < 300

/-- The retry loop of `fetchWithRetry`, fuelled by the number of attempts
still allowed (`retries + 1 - attempt`).  `attempts k` is the outcome of
the k-th `fetch` call: a response (returned immediately, whatever its
status) or a thrown error (sleep `backoff * 2 ^ attempt`, then retry).
The returned list records the sleeps, in order. -/
def fwrLoop (attempts : Nat → Except Unit HttpResp) (backoff : Nat) :
    Nat → Nat → List Nat → Except Unit HttpResp × List Nat
  | 0, _, waits => (Except.error (), waits)
  | remaining + 1, attempt, waits =>
    match attempts attempt with
    | Except.ok res => (Except.ok res, waits)
    | Except.error _ => fwrLoop attempts backoff remaining (attempt + 1)
        (waits ++ [backoff * 2 ^ attempt])

/-- `fetchWithRetry` (route.ts lines 280-299) with its defaults
`retries = 2`, `backoffMs = 400`: while `attempt <= retries`, try the
fetch; a thrown error sleeps `backoffMs * 2 ^ attempt` and retries; after
the loop the last error is rethrown. -/
def fetchWithRetry (attempts : Nat → Except Unit HttpResp) (retries backoff : Nat) :
    Except Unit HttpResp × List Nat :=
  fwrLoop attempts backoff (retries + 1) 0 []

/-! ### Deduplication and the Diversifier/Combiner
(route.ts lines 804-824 and the POST key-based dedup loops). -/

/-- The deduplication key `${t.title}@@${t.artist}` (route.ts line 805). -/
def trackKey (t : Track) : String :=
  t.title ++ "@@" ++ t.artist

/-- The normalized (trimmed, case-folded) pair the specification uses as
track identity. -/
def normPair (t : Track) : String × String :=
  (lowerStr (trimStr t.title), lowerStr (trimStr t.artist))

/-- Sequential key-based deduplication with an exclusion set and an
already-seen accumulator: the body of the merge loop of
`combinePersonalAndMoodTracks` without its early size cut-off. -/
def dedupByKeyAux (excl : List String) : List Track → List String → List Track
  | [], _ => []
  | t :: ts, seen =>
    let k := trackKey t
    if k ∈ excl ∨ k ∈ seen then dedupByKeyAux excl ts seen
    else t :: dedupByKeyAux excl ts (k :: seen)

/-- Key-based deduplication of a list (exclusions removed, first
occurrence of each key kept). -/
def dedupByKey (excl : List String) (l : List Track) : List Track :=
  dedupByKeyAux excl l []

/-- The merge loop of `combinePersonalAndMoodTracks` (route.ts
lines 807-816): walk the concatenated lists, skip excluded/seen keys,
push, and return early (flag `true`) as soon as the target size is
reached. -/
def mergeDedupEarly (excl : List String) (total : Nat) :
    List Track → List String → List Track → List Track × Bool
  | [], _, out => (out, false)
  | t :: ts, seen, out =>
    let k := trackKey t
    if k ∈ excl ∨ k ∈ seen then mergeDedupEarly excl total ts seen out
    else
      let out' := out ++ [t]
      if total ≤ out'.length then (out', true)
      else mergeDedupEarly excl total ts (k :: seen) out'

/-- Swap of two positions of a list (the body of the shuffle loop);
out-of-range indices leave the list unchanged. -/
def listSwap {α : Type} (l : List α) (i j : Nat) : List α :=
  match l[i]?, l[j]? with
  | some a, some b => (l.set i b).set j a
  | _, _ => l

/-- The Fisher-Yates loop of route.ts lines 817-822, counting the current
index down from `l.length - 1` to 1; the injected random source `rand`
supplies `Math.floor(Math.random() * (i + 1))` as `rand i % (i + 1)`. -/
def fisherYatesLoop (rand : Nat → Nat) : Nat → List Track → List Track
  | 0, out => out
  | i + 1, out => fisherYatesLoop rand i (listSwap out (i + 1) (rand (i + 1) % (i + 2)))

/-- The in-place shuffle of `combinePersonalAndMoodTracks`. -/
def fisherYates (rand : Nat → Nat) (l : List Track) : List Track :=
  fisherYatesLoop rand (l.length - 1) l

/-- `combinePersonalAndMoodTracks` (route.ts lines 804-824): merge with
dedup and early size cut-off; the shuffle runs only when the merge loop
finished without hitting the cut-off. -/
def combinePersonalAndMoodTracks (personal moodTracks : List Track)
    (excludeKeys : List String) (total : Nat) (rand : Nat → Nat) : List Track :=
  match mergeDedupEarly excludeKeys total (personal ++ moodTracks) [] [] with
  | (out, true) => out
  | (out, false) => fisherYates rand out

/-- The capped key-deduplicating append loop used by the POST handler to
pad a list (e.g. route.ts lines 1589-1595: skip keys in `seenK`, push,
break once `cap` is reached). -/
def appendCapped (cap : Nat) : List Track → List String → List Track → List Track
  | [], _, list => list
  | t :: ts, seenK, list =>
    let k := trackKey t
    if k ∈ seenK then appendCapped cap ts seenK list
    else
      let list' := list ++ [t]
      if cap ≤ list'.length then list'
      else appendCapped cap ts (k :: seenK) list'

/-! ### Vibe/Signal extraction (route.ts lines 484-541). -/

/-- `VibeSignals` (route.ts line 484). -/
structure VibeSignals where
  moodKey : String
  energy : String
  tone : String
  keywords : List String
  targets : Option TargetOverrides
  confirmation : String
deriving DecidableEq

/-- Match of `/break.?up/`: "break" followed by at most one character and
then "up", at any position. -/
def breakUpScan : List Char → Bool
  | [] => false
  | c :: cs =>
    (("break".toList).isPrefixOf (c :: cs) &&
      (("up".toList).isPrefixOf ((c :: cs).drop 5) ||
        ("up".toList).isPrefixOf ((c :: cs).drop 6)))
    || breakUpScan cs

/-- The remainder of the list after the first occurrence of `pat`
(none when `pat` does not occur). -/
def afterFirst (pat : List Char) : List Char → Option (List Char)
  | [] => if pat.isEmpty then some [] else none
  | c :: cs =>
    if pat.isPrefixOf (c :: cs) then some ((c :: cs).drop pat.length)
    else afterFirst pat cs

/-- Match of a wildcard pattern `a.*b`: an occurrence of `a` with `b`
somewhere after its end.  Existence over all occurrences of `a` is
equivalent to checking after the first one (whose remainder is longest). -/
def seqContains (s a b : String) : Bool :=
  match afterFirst a.toList s.toList with
  | some rest => containsList b.toList rest
  | none => false

/-- JS word character `\w` (the prompts rules only use letter words). -/
def wordChar (c : Char) : Bool :=
  c.isAlphanum || c == '_'

/-- Maximal word-character runs of a character list (the `\b`-delimited
words of the prompt). -/
def wordsAux : List Char → List Char → List (List Char)
  | [], acc => if acc.isEmpty then [] else [acc.reverse]
  | c :: cs, acc =>
    if wordChar c then wordsAux cs (c :: acc)
    else if acc.isEmpty then wordsAux cs []
    else acc.reverse :: wordsAux cs []

/-- Count of `/\b(very|so|really|super|extremely)\b/g` matches: the number
of whole words equal to one of the intensifiers. -/
def countIntensifiers (s : String) : Nat :=
  (wordsAux s.toList []).countP
    (fun w => decide (String.mk w ∈ ["very", "so", "really", "super", "extremely"]))

/-- `Array.from(new Set(xs))`: first-occurrence order deduplication. -/
def dedupStrings : List String → List String → List String
  | [], _ => []
  | x :: xs, seen =>
    if x ∈ seen then dedupStrings xs seen else x :: dedupStrings xs (x :: seen)

/-- The regex test of the heartbreak rule (route.ts line 500):
`/(break.?up|heartbreak|heartbroken|girlfriend .*mad|boyfriend .*mad|fight|argument|arguing|mad at me)/`. -/
def heartbreakHit (s : String) : Bool :=
  breakUpScan s.toList ||
    containsAny s ["heartbreak", "heartbroken", "fight", "argument", "arguing", "mad at me"] ||
    seqContains s "girlfriend " "mad" || seqContains s "boyfriend " "mad"

/-- `extractVibeSignals` (route.ts lines 486-541): lower-case the prompt,
then run the fixed ordered rule chain, each rule guarded by a literal
alternation test; target bounds compose through min/max clamps. -/
def extractVibeSignals (text : String) (fallbackMood : String) : VibeSignals :=
  let s := lowerStr text
  let moodKey := fallbackMood
  let energy := "mid"
  let tone := "neutral"
  let keywords : List String := []
  let targets := TargetOverrides.empty
  let contexts : List String := []
  -- rain rule (route.ts lines 495-499)
  let rainHit := containsAny s ["rain", "storm", "monsoon"]
  let contexts := if rainHit then contexts ++ ["rainy"] else contexts
  let keywords := if rainHit then keywords ++ ["rain", "lofi", "ambient"] else keywords
  let targets := if rainHit then { targets with energy := some 0.35, tempo := some 80 } else targets
  let tone := if rainHit then (if tone = "neutral" then "reflective" else tone) else tone
  -- heartbreak rule (route.ts lines 500-505)
  let hbHit := heartbreakHit s
  let moodKey := if hbHit then "Sad" else moodKey
  let tone := if hbHit then "heartbroken" else tone
  let keywords := if hbHit then keywords ++ ["heartbreak", "emotional", "ballad", "r&b"] else keywords
  let targets := if hbHit then
      { targets with
        valence := some 0.25
        energy := some (min (targets.energy.getD 1) 0.45) }
    else targets
  -- nostalgia rule (route.ts lines 506-511)
  let nosHit := containsAny s ["nostalgic", "nostalgia", "remember", "missing", "old times",
    "retro", "90s", "80s", "2000s"]
  let tone := if nosHit then "nostalgic" else tone
  let keywords := if nosHit then keywords ++ ["nostalgia", "retro", "lofi", "synthwave"] else keywords
  let moodKey := if nosHit ∧ moodKey = "Energetic" then "Chill" else moodKey
  let targets := if nosHit then
      { targets with
        energy := some (min (targets.energy.getD 1) 0.5)
        tempo := some (min (targets.tempo.getD 999) 95) }
    else targets
  -- anger rule (route.ts lines 512-516)
  let angHit := containsAny s ["angry", "furious", "rage", "pissed"]
  let moodKey := if angHit then "Energetic" else moodKey
  let energy := if angHit then "high" else energy
  let tone := if angHit then "angry" else tone
  let keywords := if angHit then keywords ++ ["rock", "edm", "trap"] else keywords
  let targets := if angHit then
      { targets with
        energy := some (max (targets.energy.getD 0) 0.85)
        tempo := some (max (targets.tempo.getD 0) 125) }
    else targets
  -- focus rule (route.ts lines 517-521)
  let focHit := containsAny s ["study", "focus", "work", "coding", "deep work",
    "concentrate", "instrumental"]
  let moodKey := if focHit then "Focus" else moodKey
  let energy := if focHit then "low" else energy
  let tone := if focHit then "focused" else tone
  let keywords := if focHit then keywords ++ ["instrumental", "lofi", "ambient"] else keywords
  let targets := if focHit then
      { targets with
        energy := some 0.35
        valence := some 0.5
        tempo := some (min (targets.tempo.getD 999) 100) }
    else targets
  -- party rule (route.ts lines 522-526)
  let parHit := containsAny s ["party", "dance", "club", "celebrat", "birthday", "wedding"]
  let moodKey := if parHit then "Energetic" else moodKey
  let energy := if parHit then "high" else energy
  let tone := if parHit then "celebratory" else tone
  let keywords := if parHit then keywords ++ ["dance", "party"] else keywords
  let targets := if parHit then
      { targets with
        valence := some 0.8
        energy := some 0.85
        tempo := some (max (targets.tempo.getD 0) 120) }
    else targets
  -- loneliness rule (route.ts lines 527-531)
  let lonHit := containsAny s ["lonely", "alone", "cry", "tears", "blue", "depress", "sad"]
  let moodKey := if lonHit then "Sad" else moodKey
  let tone := if lonHit then (if tone = "neutral" then "sad" else tone) else tone
  let keywords := if lonHit then keywords ++ ["piano", "acoustic"] else keywords
  let targets := if lonHit then
      { targets with
        valence := some (min (targets.valence.getD 1) 0.25)
        energy := some (min (targets.energy.getD 1) 0.45) }
    else targets
  -- intensity heuristic (route.ts lines 532-537)
  let exclam := s.toList.countP (fun c => c == '!')
  let intens := countIntensifiers s
  let strong := 2 ≤ exclam + intens
  let targets := if strong ∧ moodKey = "Sad" then
      { targets with energy := some 0.3, tempo := some 75 }
    else targets
  let targets := if strong ∧ moodKey = "Energetic" then
      { targets with energy := some 0.92, tempo := some 132 }
    else targets
  let confirmation := "Got it. " ++ (if "rainy" ∈ contexts then "Rainy " else "") ++
    (if tone ≠ "neutral" then tone else lowerStr moodKey) ++ " vibes, right?"
  let uniq := (dedupStrings keywords []).take 8
  { moodKey := moodKey, energy := energy, tone := tone, keywords := uniq,
    targets := if targets.isEmpty then none else some targets,
    confirmation := confirmation }

/-! ### The end of the POST handler (route.ts lines 1287-1619), modelled
with the already-resolved results of external fetches as parameters. -/

/-- The scoring inputs of the final ranking step of POST (the fetched
feature and genre maps, the taste profile, the selected mood, the
language constraint and the vibe targets). -/
structure ScoringEnv where
  features : List (String × AudioFeatures)
  taste : TasteProfile
  mood : String
  lang : Lang
  agm : List (String × List String)
  custom : Option TargetOverrides

/-- `getGenres` of the POST language-filter step (route.ts lines
1552-1560): raw concatenation of the per-artist genre lists. -/
def rawGenres (agm : List (String × List String)) (t : Track) : List String :=
  t.artistIds.flatMap (fun id => lookupGenres agm id)

/-- The language-filter predicate of route.ts lines 1561-1567: keep
everything under no constraint, else the strict classifier. -/
def langFilterPred (lang : Lang) (agm : List (String × List String)) (t : Track) : Bool :=
  match lang with
  | Lang.any => true
  | Lang.english => isEnglishStrict t.title t.artist (rawGenres agm t)
  | Lang.urdu => isUrduStrict t.title t.artist (rawGenres agm t)

/-- The final stage of POST (route.ts lines 1527-1611): combine (cap 25),
language-filter, pad with language-hinted candidates when the pool fell
under 10 (the hint-query list of `buildLanguageHintQueries` is non-empty
exactly when a language constraint is active, and `langCandidates` stands
for the fetched, strictly-filtered extra candidates), rank with
`scoreByFormula`, and slice to `max 10 (min 15 length)`.  The success
path of the ranking `try` block is modelled. -/
def emittedTracks (results : List Track) (rand : Nat → Nat) (env : ScoringEnv)
    (langCandidates : List Track) : List Track :=
  let final := combinePersonalAndMoodTracks results [] [] 25 rand
  let filtered := final.filter (langFilterPred env.lang env.agm)
  let list := if filtered.length < 10 ∧ env.lang ≠ Lang.any then
      appendCapped 15 langCandidates (filtered.map trackKey) filtered
    else filtered
  let ranked := scoreByFormula list env.features env.taste env.mood env.lang env.agm env.custom
  ranked.take (max 10 (min 15 ranked.length))

/-- The per-item loop of `searchSpotifyTracksMulti` (route.ts lines
664-670): skip empty/seen ids, push, break once the total cap is hit. -/
def addTracksById (cap : Nat) : List Track → List String → List Track → List Track × List String
  | [], seen, out => (out, seen)
  | t :: ts, seen, out =>
    let id := t.spotifyId.getD ""
    if id = "" ∨ id ∈ seen then addTracksById cap ts seen out
    else
      let out' := out ++ [t]
      if cap ≤ out'.length then (out', seen)
      else addTracksById cap ts (id :: seen) out'

/-- The per-query loop of `searchSpotifyTracksMulti` (route.ts lines
652-672): a thrown fetch error or a non-2xx response is absorbed
(`continue`), a successful response contributes its items. -/
def searchMultiLoop (cap : Nat) :
    List (Except Unit HttpResp) → List String → List Track → List Track
  | [], _, out => out
  | o :: os, seen, out =>
    if cap ≤ out.length then out
    else
      match o with
      | Except.error _ => searchMultiLoop cap os seen out
      | Except.ok r =>
        if respOk r then
          match addTracksById cap r.tracks seen out with
          | (out', seen') => searchMultiLoop cap os seen' out'
        else searchMultiLoop cap os seen out

/-- `searchSpotifyTracksMulti` (route.ts lines 649-674) over the
per-query fetch outcomes. -/
def searchSpotifyTracksMulti (outcomes : List (Except Unit HttpResp)) (cap : Nat) : List Track :=
  searchMultiLoop cap outcomes [] []

/-- `searchTracks` (route.ts lines 1255-1285): unlike the multi-query
search, it rethrows fetch errors and THROWS on any non-2xx response
(`throw new Error("Search failed: ...")`). -/
def searchTracksModel (outcome : Except Unit HttpResp) : Except Unit (List Track) :=
  match outcome with
  | Except.error e => Except.error e
  | Except.ok r => if respOk r then Except.ok r.tracks else Except.error ()

/-- The error-flow skeleton of the POST handler (route.ts lines
1287-1619).  `tokenOutcome` is `getSpotifyToken` (route.ts 1113-1146,
throws on missing or rejected credentials; the throw escapes to the
top-level catch, which answers `ok:false`).  `mbOutcome` is the
MusicBrainz tag search of `fetchMusicBrainzByTag` called bare at
route.ts 1322: its `fetchWithRetry` call (route.ts 831) has no
surrounding try/catch, so a retry-exhausted network failure (`.error`)
rethrows to the top-level catch, while a non-2xx response is absorbed
into an empty recording list (route.ts 836-839) — modelled by dropping
the `mbMapped` contribution, since with no recordings the per-recording
Spotify mapping (absorbed inside `runWithConcurrency` workers) maps
nothing.  `tasteOutcome` is `buildTasteProfile` called bare at route.ts
1387: its user-library fetches (route.ts 340/349/359/373) are likewise
unguarded `fetchWithRetry` calls, so a network failure rethrows (an
anonymous request performs none of them and resolves to the empty
profile); a resolved profile feeds the scoring environment.  The
personalization/anchor block (route.ts 1342-1384) sits inside its own
try/catch and enters as the already-resolved `anchorCandidates`;
candidate searches enter as per-query outcomes absorbed by
`searchSpotifyTracksMulti`; the ListenBrainz-popularity and artist-tag
lookups absorb internally.  Result assembly keeps its key-based dedup
and caps (the intermediate score-based reorderings do not affect the
ok-flag and are omitted).  When fewer than 10 results were gathered, the
fallback mood search `searchTracks` runs OUTSIDE any inner try/catch
(route.ts line 1515), so its failure propagates. -/
def postPipeline (tokenOutcome : Except Unit Unit)
    (mbOutcome : Except Unit HttpResp)
    (tasteOutcome : Except Unit TasteProfile)
    (candidateOutcomes : List (Except Unit HttpResp))
    (anchorCandidates mbMapped : List Track)
    (fallbackOutcome : Except Unit HttpResp)
    (rand : Nat → Nat) (env : ScoringEnv) (langCandidates : List Track) :
    Except Unit (List Track) :=
  match tokenOutcome with
  | Except.error e => Except.error e
  | Except.ok _ =>
    match mbOutcome with
    | Except.error e => Except.error e
    | Except.ok mbResp =>
      let mbTracks := if respOk mbResp then mbMapped else []
      match tasteOutcome with
      | Except.error e => Except.error e
      | Except.ok taste =>
        let envUsed : ScoringEnv := { env with taste := taste }
        let candidates := searchSpotifyTracksMulti candidateOutcomes 100
        let merged := dedupByKey [] (anchorCandidates ++ candidates)
        let results0 := (dedupByKey [] (merged ++ mbTracks)).take 25
        if results0.length < 10 then
          match searchTracksModel fallbackOutcome with
          | Except.error e => Except.error e
          | Except.ok moodTracks =>
            Except.ok (emittedTracks
              (appendCapped 10 moodTracks (results0.map trackKey) results0)
              rand envUsed langCandidates)
        else Except.ok (emittedTracks results0 rand envUsed langCandidates)

/-! ### Basic bounds on the sub-scores. -/

theorem clamp01_nonneg (x : ℚ) : 0 ≤ clamp01 x :=
  le_max_left 0 (min 1 x)

theorem clamp01_le_one (x : ℚ) : clamp01 x ≤ 1 :=
  max_le zero_le_one (min_le_left 1 x)

theorem tasteMatchOf_nonneg (taste : TasteProfile) (agm : List (String × List String))
    (tr : Track) : 0 ≤ tasteMatchOf taste agm tr :=
  clamp01_nonneg _

theorem tasteMatchOf_le_one (taste : TasteProfile) (agm : List (String × List String))
    (tr : Track) : tasteMatchOf taste agm tr ≤ 1 :=
  clamp01_le_one _

theorem moodMatchOf_nonneg (features : List (String × AudioFeatures)) (t : MoodTargets)
    (tr : Track) : 0 ≤ moodMatchOf features t tr := by
  simp only [moodMatchOf]
  split
  · norm_num
  · exact clamp01_nonneg _

theorem moodMatchOf_le_one (features : List (String × AudioFeatures)) (t : MoodTargets)
    (tr : Track) : moodMatchOf features t tr ≤ 1 := by
  simp only [moodMatchOf]
  split
  · norm_num
  · exact clamp01_le_one _

theorem languageMatchOf_nonneg (lang : Lang) (agm : List (String × List String))
    (tr : Track) : 0 ≤ languageMatchOf lang agm tr := by
  cases lang with
  | any => norm_num [languageMatchOf]
  | english => simp only [languageMatchOf]; split <;> norm_num
  | urdu => simp only [languageMatchOf]; split <;> norm_num

theorem languageMatchOf_le_one (lang : Lang) (agm : List (String × List String))
    (tr : Track) : languageMatchOf lang agm tr ≤ 1 := by
  cases lang with
  | any => norm_num [languageMatchOf]
  | english => simp only [languageMatchOf]; split <;> norm_num
  | urdu => simp only [languageMatchOf]; split <;> norm_num

/-! ### C1: the scoring formula and descending order. -/

/-- C1: every candidate's final score is
0.5·tasteMatch + 0.4·moodMatch + 0.1·languageMatch with each sub-score in
[0,1]; the library tiers are top 1.0 / saved 0.9 / recent 0.7 with only
the highest applicable tier counted, artist affinity is primary 1.0 else
any-contributing 0.7, and `scoreByFormula` returns its input sorted in
descending order of this score. -/
theorem scoreByFormula_weighted_and_sorted
    (tracks : List Track) (features : List (String × AudioFeatures)) (taste : TasteProfile)
    (mood : String) (lang : Lang) (agm : List (String × List String))
    (custom : Option TargetOverrides) :
    (scoreByFormula tracks features taste mood lang agm custom).Pairwise
      (fun a b =>
        trackScore features taste (resolveTargets mood custom) lang agm b ≤
          trackScore features taste (resolveTargets mood custom) lang agm a) ∧
    (∀ tr : Track,
      trackScore features taste (resolveTargets mood custom) lang agm tr =
        0.5 * tasteMatchOf taste agm tr +
          0.4 * moodMatchOf features (resolveTargets mood custom) tr +
          0.1 * languageMatchOf lang agm tr ∧
      0 ≤ tasteMatchOf taste agm tr ∧ tasteMatchOf taste agm tr ≤ 1 ∧
      0 ≤ moodMatchOf features (resolveTargets mood custom) tr ∧
        moodMatchOf features (resolveTargets mood custom) tr ≤ 1 ∧
      0 ≤ languageMatchOf lang agm tr ∧ languageMatchOf lang agm tr ≤ 1) ∧
    (∀ id : String, id ≠ "" → id ∈ taste.topTrackIds → libMembership taste id = 1) ∧
    (∀ id : String, id ≠ "" → id ∉ taste.topTrackIds → id ∈ taste.savedTrackIds →
      libMembership taste id = 0.9) ∧
    (∀ id : String, id ≠ "" → id ∉ taste.topTrackIds → id ∉ taste.savedTrackIds →
      id ∈ taste.recentTrackIds → libMembership taste id = 0.7) ∧
    (∀ tr : Track, tr.primaryArtistId.getD "" ≠ "" →
      tr.primaryArtistId.getD "" ∈ taste.artistIds → artistAffinity taste tr = 1) ∧
    (∀ tr : Track,
      ¬ (tr.primaryArtistId.getD "" ≠ "" ∧ tr.primaryArtistId.getD "" ∈ taste.artistIds) →
      (∃ aid ∈ tr.artistIds, aid ∈ taste.artistIds) → artistAffinity taste tr = 0.7) := by
  refine ⟨?_, ?_, ?_, ?_, ?_, ?_, ?_⟩
  · set sc := trackScore features taste (resolveTargets mood custom) lang agm with hsc
    set out := tracks.map (fun tr => (tr, sc tr)) with hout
    have hsorted : (List.insertionSort byScoreDesc out).Pairwise byScoreDesc :=
      List.sorted_insertionSort byScoreDesc out
    have hmem : ∀ p ∈ List.insertionSort byScoreDesc out, p.2 = sc p.1 := by
      intro p hp
      have hp2 : p ∈ out := (List.perm_insertionSort byScoreDesc out).mem_iff.mp hp
      rw [hout] at hp2
      rcases List.mem_map.mp hp2 with ⟨tr, _, rfl⟩
      rfl
    show (List.map Prod.fst (List.insertionSort byScoreDesc out)).Pairwise _
    rw [List.pairwise_map]
    refine hsorted.imp_of_mem ?_
    intro a b ha hb hab
    have h1 := hmem a ha
    have h2 := hmem b hb
    simpa [byScoreDesc, h1, h2] using hab
  · intro tr
    exact ⟨rfl, tasteMatchOf_nonneg _ _ _, tasteMatchOf_le_one _ _ _,
      moodMatchOf_nonneg _ _ _, moodMatchOf_le_one _ _ _,
      languageMatchOf_nonneg _ _ _, languageMatchOf_le_one _ _ _⟩
  · intro id hne htop
    simp [libMembership, hne, htop]
  · intro id hne htop hsaved
    simp [libMembership, hne, htop, hsaved]
  · intro id hne htop hsaved hrecent
    simp [libMembership, hne, htop, hsaved, hrecent]
  · intro tr hne hmemb
    simp [artistAffinity, hne, hmemb]
  · intro tr hnot hex
    have hany : tr.artistIds.any (fun aid => decide (aid ∈ taste.artistIds)) = true := by
      rcases hex with ⟨aid, haid, htaste⟩
      exact List.any_eq_true.mpr ⟨aid, haid, decide_eq_true htaste⟩
    simp [artistAffinity, hnot, hany]

/-- Concrete taste profile exercising every library tier and affinity
case of the C1 theorem. -/
def tasteC1 : TasteProfile :=
  ⟨[], ["a1"], [], [], ["t1"], ["t1", "t2"], ["t3"]⟩

/-- A track whose primary artist is in taste. -/
def trackPrimC1 : Track :=
  ⟨"p", "q", "", none, none, none, ["a9"], some "a1", none⟩

/-- A track with only a contributing artist in taste. -/
def trackContribC1 : Track :=
  ⟨"p2", "q2", "", none, none, none, ["a1"], none, none⟩

theorem scoreByFormula_weighted_and_sorted_witness :
    libMembership tasteC1 "t1" = 1 ∧ libMembership tasteC1 "t2" = 0.9 ∧
    libMembership tasteC1 "t3" = 0.7 ∧ artistAffinity tasteC1 trackPrimC1 = 1 ∧
    artistAffinity tasteC1 trackContribC1 = 0.7 := by
  have h := scoreByFormula_weighted_and_sorted [] [] tasteC1 "Happy" Lang.any [] none
  refine ⟨h.2.2.1 "t1" (by decide) (by decide),
    h.2.2.2.1 "t2" (by decide) (by decide) (by decide),
    h.2.2.2.2.1 "t3" (by decide) (by decide) (by decide) (by decide),
    h.2.2.2.2.2.1 trackPrimC1 (by decide) (by decide),
    h.2.2.2.2.2.2 trackContribC1 (by decide) ⟨"a1", by decide, by decide⟩⟩

/-! ### C10: scoring is a permutation of the input. -/

theorem scoreByFormula_perm_helper
    (tracks : List Track) (features : List (String × AudioFeatures)) (taste : TasteProfile)
    (mood : String) (lang : Lang) (agm : List (String × List String))
    (custom : Option TargetOverrides) :
    (scoreByFormula tracks features taste mood lang agm custom).Perm tracks := by
  have h1 := List.perm_insertionSort byScoreDesc
    (tracks.map (fun tr =>
      (tr, trackScore features taste (resolveTargets mood custom) lang agm tr)))
  have h2 := h1.map Prod.fst
  have h3 : (tracks.map (fun tr =>
      (tr, trackScore features taste (resolveTargets mood custom) lang agm tr))).map Prod.fst
      = tracks := by
    rw [List.map_map]
    rw [show (Prod.fst ∘ fun tr =>
      (tr, trackScore features taste (resolveTargets mood custom) lang agm tr)) = id from rfl]
    exact List.map_id tracks
  rw [h3] at h2
  exact h2

/-- C10: `scoreByFormula` returns a permutation of its input track list —
no track is dropped, added or duplicated; scoring and ranking alone never
shrink the candidate pool. -/
theorem scoreByFormula_perm
    (tracks : List Track) (features : List (String × AudioFeatures)) (taste : TasteProfile)
    (mood : String) (lang : Lang) (agm : List (String × List String))
    (custom : Option TargetOverrides) :
    (scoreByFormula tracks features taste mood lang agm custom).Perm tracks :=
  scoreByFormula_perm_helper tracks features taste mood lang agm custom

/-! ### C4: missing-feature distance defaults. -/

/-- C4 counterexample: a track feature record whose tempo is absent gets
tempo distance 1.0 in the weighted sum (route.ts line 108), not the 0.6
penalty the claim states for every feature. -/
theorem missingTempo_distance_counterexample :
    distTempo ⟨"id1", some 0.5, some 0.5, some 0.5, none⟩ (getMoodTargets "Happy") = 1 ∧
    (1 : ℚ) ≠ 0.6 := by
  constructor
  · rfl
  · norm_num

/-- C4 (amended): in the mood-match distance terms, an absent or
non-numeric valence, energy or danceability contributes the fixed 0.6
penalty, but an absent tempo (or an unset/zero tempo target) contributes
1.0, for every combination of present and missing features. -/
theorem missingFeature_distance_defaults (f : AudioFeatures) (t : MoodTargets) :
    (f.valence = none → distValence f t = 0.6) ∧
    (f.energy = none → distEnergy f t = 0.6) ∧
    (f.danceability = none → distDanceability f t = 0.6) ∧
    (f.tempo = none → distTempo f t = 1) ∧
    (t.tempo = none → distTempo f t = 1) := by
  refine ⟨?_, ?_, ?_, ?_, ?_⟩ <;> intro h
  · simp [distValence, h]
  · simp [distEnergy, h]
  · simp [distDanceability, h]
  · cases ht : t.tempo <;> simp [distTempo, h, ht]
  · cases hf : f.tempo <;> simp [distTempo, h, hf]

theorem missingFeature_distance_defaults_witness :
    distValence ⟨"w", none, none, none, none⟩ (getMoodTargets "Happy") = 0.6 ∧
    distEnergy ⟨"w", none, none, none, none⟩ (getMoodTargets "Happy") = 0.6 ∧
    distDanceability ⟨"w", none, none, none, none⟩ (getMoodTargets "Happy") = 0.6 ∧
    distTempo ⟨"w", none, none, none, none⟩ (getMoodTargets "Happy") = 1 := by
  have h := missingFeature_distance_defaults ⟨"w", none, none, none, none⟩ (getMoodTargets "Happy")
  exact ⟨h.1 rfl, h.2.1 rfl, h.2.2.1 rfl, h.2.2.2.1 rfl⟩

/-! ### C5: the retry helper. -/

/-- C5 counterexample: a first attempt answering HTTP 500 is returned
immediately by `fetchWithRetry` with no retry and no backoff wait —
5xx responses are not retried and no server-supplied delay is consulted
(route.ts line 288 returns any response as-is). -/
theorem fetchWithRetry_no_5xx_retry_counterexample :
    fetchWithRetry (fun _ => Except.ok ⟨500, []⟩) 2 400 = (Except.ok ⟨500, []⟩, []) ∧
    respOk ⟨500, []⟩ = false := by
  constructor
  · rfl
  · rfl

/-- C5 (amended): `fetchWithRetry` retries with exponential backoff
(400·2^attempt, a thrown error — network failure or timeout abort —
being the only retry trigger), returns the first response it gets
regardless of status (so 5xx and rate-limit responses are never retried
and no server-supplied delay is honored), and gives up after the fixed
retry count 2 by rethrowing the last error after waits 400, 800, 1600. -/
theorem fetchWithRetry_retry_behavior :
    (∀ (attempts : Nat → Except Unit HttpResp) (resp : HttpResp) (k : Nat), k ≤ 2 →
      (∀ j, j < k → attempts j = Except.error ()) → attempts k = Except.ok resp →
      fetchWithRetry attempts 2 400 =
        (Except.ok resp, (List.range k).map (fun j => 400 * 2 ^ j))) ∧
    (∀ attempts : Nat → Except Unit HttpResp, (∀ j, j ≤ 2 → attempts j = Except.error ()) →
      fetchWithRetry attempts 2 400 = (Except.error (), [400, 800, 1600])) := by
  constructor
  · intro attempts resp k hk h0 hkres
    interval_cases k
    · simp [fetchWithRetry, fwrLoop, hkres]
    · have e0 := h0 0 (by norm_num)
      simp [fetchWithRetry, fwrLoop, e0, hkres]
      decide
    · have e0 := h0 0 (by norm_num)
      have e1 := h0 1 (by norm_num)
      simp [fetchWithRetry, fwrLoop, e0, e1, hkres]
      decide
  · intro attempts h
    have e0 := h 0 (by norm_num)
    have e1 := h 1 (by norm_num)
    have e2 := h 2 (by norm_num)
    simp [fetchWithRetry, fwrLoop, e0, e1, e2]

/-- A concrete attempt sequence failing once then answering 200. -/
def attemptsOnceFailing : Nat → Except Unit HttpResp :=
  fun j => if j = 1 then Except.ok ⟨200, []⟩ else Except.error ()

theorem fetchWithRetry_retry_behavior_witness :
    fetchWithRetry attemptsOnceFailing 2 400 = (Except.ok ⟨200, []⟩, [400]) ∧
    fetchWithRetry (fun _ => Except.error ()) 2 400 = (Except.error (), [400, 800, 1600]) := by
  constructor
  · have h := fetchWithRetry_retry_behavior.1 attemptsOnceFailing ⟨200, []⟩ 1
      (by norm_num)
      (fun j hj => by
        have hj0 : j = 0 := by omega
        subst hj0
        rfl)
      rfl
    simpa using h
  · exact fetchWithRetry_retry_behavior.2 (fun _ => Except.error ()) (fun _ _ => rfl)

/-! ### C8: no language constraint is neutral. -/

/-- C8: under `language = any` the language sub-score is 1 for every
candidate (route.ts line 127) and the language-filtering step keeps the
candidate list unchanged (route.ts lines 1561-1567). -/
theorem languageAny_neutral (tr : Track) (agm : List (String × List String))
    (tracks : List Track) :
    languageMatchOf Lang.any agm tr = 1 ∧
    tracks.filter (langFilterPred Lang.any agm) = tracks := by
  constructor
  · rfl
  · simp [langFilterPred]

/-! ### C9: the heartbreak prompt scenario. -/

/-- C9: for the prompt "my girlfriend is mad at me", with any fallback
mood, the extractor answers mood key "Sad", tone "heartbroken", a keyword
list containing "heartbreak", and a valence target of 0.25. -/
theorem girlfriendPrompt_signals (fb : String) :
    (extractVibeSignals "my girlfriend is mad at me" fb).moodKey = "Sad" ∧
    (extractVibeSignals "my girlfriend is mad at me" fb).tone = "heartbroken" ∧
    "heartbreak" ∈ (extractVibeSignals "my girlfriend is mad at me" fb).keywords ∧
    ((extractVibeSignals "my girlfriend is mad at me" fb).targets.bind
      TargetOverrides.valence) = some 0.25 := by
  refine ⟨rfl, rfl, ?_, rfl⟩
  have h : (extractVibeSignals "my girlfriend is mad at me" fb).keywords =
      ["heartbreak", "emotional", "ballad", "r&b"] := rfl
  rw [h]
  decide

/-! ### C7: the happy hard gate and the related-artist expansion trigger. -/

/-- C7: the hard gate for mood "happy" holds exactly when valence, energy
and tempo are all present with valence ≥ 0.6, energy ≥ 0.5 and
tempo ≥ 100; the pool-expansion branch of POST fires exactly when the
anchor coverage is below 0.35 and the user has at least one top artist,
where the coverage of a non-empty anchor list (with at least one usable
id) is the fraction of anchors passing the hard gate. -/
theorem happyGate_and_expansionTrigger
    (f : AudioFeatures) (feats : List (String × AudioFeatures)) (tracks : List Track)
    (mood : String) (n : Nat) :
    (passesHardForMood "happy" f = true ↔
      ∃ v e tp, f.valence = some v ∧ f.energy = some e ∧ f.tempo = some tp ∧
        0.6 ≤ v ∧ 0.5 ≤ e ∧ 100 ≤ tp) ∧
    (relatedExpansionTriggered (assessMoodCoverage feats tracks mood) n = true ↔
      assessMoodCoverage feats tracks mood < 0.35 ∧ 1 ≤ n) ∧
    (tracks ≠ [] →
      (tracks.map (fun t => t.spotifyId.getD "")).filter (fun s => s ≠ "") ≠ [] →
      assessMoodCoverage feats tracks mood =
        ((tracks.countP (trackPassesGate feats mood)) : ℚ) / (tracks.length : ℚ)) := by
  refine ⟨?_, ?_, ?_⟩
  · have hdef : passesHardForMood "happy" f =
        (match f.valence, f.energy, f.tempo with
          | some v, some e, some tp =>
            decide ((0.6 : ℚ) ≤ v) && decide ((0.5 : ℚ) ≤ e) && decide ((100 : ℚ) ≤ tp)
          | _, _, _ => false) := rfl
    rw [hdef]
    rcases f with ⟨id, v?, e?, d?, t?⟩
    cases v? <;> cases e? <;> cases t? <;>
      simp [decide_eq_true_eq, and_assoc]
  · simp only [relatedExpansionTriggered, Bool.and_eq_true, decide_eq_true_eq]
    constructor
    · rintro ⟨h1, h2⟩
      exact ⟨h1, h2⟩
    · rintro ⟨h1, h2⟩
      exact ⟨h1, h2⟩
  · intro hne hids
    have h1 : tracks.isEmpty = false := by
      cases tracks with
      | nil => exact absurd rfl hne
      | cons a l => rfl
    have h2 : ((tracks.map (fun t => t.spotifyId.getD "")).filter (fun s => s ≠ "")).isEmpty
        = false := by
      cases hcase : (tracks.map (fun t => t.spotifyId.getD "")).filter (fun s => s ≠ "") with
      | nil => exact absurd hcase hids
      | cons a l => rfl
    simp [assessMoodCoverage, h1, h2]
    intro hall
    exfalso
    apply hids
    apply List.filter_eq_nil_iff.mpr
    intro s hs
    rcases List.mem_map.mp hs with ⟨t, ht, rfl⟩
    simpa using hall t ht

/-! ### Permutation facts for the Fisher-Yates shuffle. -/

theorem perm_set_cons {α : Type} : ∀ (l : List α) (m : Nat) (a b : α),
    l[m]? = some b → (b :: l.set m a).Perm (a :: l)
  | [], m, a, b, h => by simp at h
  | x :: xs, 0, a, b, h => by
    simp only [List.getElem?_cons_zero, Option.some.injEq] at h
    subst h
    exact List.Perm.swap a x xs
  | x :: xs, m + 1, a, b, h => by
    simp only [List.getElem?_cons_succ] at h
    have step2 := (perm_set_cons xs m a b h).cons x
    exact (List.Perm.swap x b (xs.set m a)).trans (step2.trans (List.Perm.swap a x xs))

theorem set_set_perm {α : Type} : ∀ (l : List α) (i j : Nat) (a b : α),
    l[i]? = some a → l[j]? = some b → ((l.set i b).set j a).Perm l
  | [], _, _, _, _, hi, _ => by simp at hi
  | x :: xs, 0, 0, a, b, hi, hj => by
    simp only [List.getElem?_cons_zero, Option.some.injEq] at hi hj
    subst hi
    subst hj
    exact List.Perm.refl _
  | x :: xs, 0, j + 1, a, b, hi, hj => by
    simp only [List.getElem?_cons_zero, Option.some.injEq] at hi
    simp only [List.getElem?_cons_succ] at hj
    subst hi
    exact perm_set_cons xs j x b hj
  | x :: xs, i + 1, 0, a, b, hi, hj => by
    simp only [List.getElem?_cons_succ] at hi
    simp only [List.getElem?_cons_zero, Option.some.injEq] at hj
    subst hj
    exact perm_set_cons xs i x a hi
  | x :: xs, i + 1, j + 1, a, b, hi, hj => by
    simp only [List.getElem?_cons_succ] at hi hj
    exact (set_set_perm xs i j a b hi hj).cons x

theorem listSwap_perm {α : Type} (l : List α) (i j : Nat) : (listSwap l i j).Perm l := by
  unfold listSwap
  cases hi : l[i]? with
  | none => exact List.Perm.refl l
  | some a =>
    cases hj : l[j]? with
    | none => exact List.Perm.refl l
    | some b => exact set_set_perm l i j a b hi hj

theorem fisherYatesLoop_perm (rand : Nat → Nat) :
    ∀ (n : Nat) (l : List Track), (fisherYatesLoop rand n l).Perm l
  | 0, l => List.Perm.refl l
  | n + 1, l =>
    (fisherYatesLoop_perm rand n (listSwap l (n + 1) (rand (n + 1) % (n + 2)))).trans
      (listSwap_perm l (n + 1) (rand (n + 1) % (n + 2)))

theorem fisherYates_perm (rand : Nat → Nat) (l : List Track) :
    (fisherYates rand l).Perm l :=
  fisherYatesLoop_perm rand (l.length - 1) l

/-! ### Facts about key-based deduplication. -/

theorem dedupByKeyAux_nodup (excl : List String) :
    ∀ (l : List Track) (seen : List String),
    ((dedupByKeyAux excl l seen).map trackKey).Nodup ∧
    ∀ t ∈ dedupByKeyAux excl l seen, trackKey t ∉ seen
  | [], seen => by simp [dedupByKeyAux]
  | t :: ts, seen => by
    by_cases h : trackKey t ∈ excl ∨ trackKey t ∈ seen
    · simp only [dedupByKeyAux, if_pos h]
      exact dedupByKeyAux_nodup excl ts seen
    · simp only [dedupByKeyAux, if_neg h]
      have ih := dedupByKeyAux_nodup excl ts (trackKey t :: seen)
      push_neg at h
      constructor
      · simp only [List.map_cons, List.nodup_cons]
        refine ⟨?_, ih.1⟩
        intro hmem
        rcases List.mem_map.mp hmem with ⟨u, hu, hku⟩
        exact (ih.2 u hu) (by simp [hku])
      · intro u hu
        rcases List.mem_cons.mp hu with rfl | hu2
        · exact h.2
        · intro hseen
          exact (ih.2 u hu2) (List.mem_cons_of_mem _ hseen)

theorem dedupByKey_nodup (excl : List String) (l : List Track) :
    ((dedupByKey excl l).map trackKey).Nodup :=
  (dedupByKeyAux_nodup excl l []).1

/-! ### Characterization of the merge loop of the Combiner. -/

theorem mergeDedupEarly_spec (excl : List String) (total : Nat) :
    ∀ (l : List Track) (seen : List String) (out : List Track), out.length < total →
    mergeDedupEarly excl total l seen out =
      (if total ≤ out.length + (dedupByKeyAux excl l seen).length then
        (out ++ (dedupByKeyAux excl l seen).take (total - out.length), true)
      else (out ++ dedupByKeyAux excl l seen, false))
  | [], seen, out, hout => by
    simp [mergeDedupEarly, dedupByKeyAux, Nat.not_le.mpr hout]
  | t :: ts, seen, out, hout => by
    by_cases h : trackKey t ∈ excl ∨ trackKey t ∈ seen
    · simp only [mergeDedupEarly, dedupByKeyAux, if_pos h]
      exact mergeDedupEarly_spec excl total ts seen out hout
    · simp only [mergeDedupEarly, dedupByKeyAux, if_neg h]
      by_cases hcap : total ≤ (out ++ [t]).length
      · have hlen : (out ++ [t]).length = out.length + 1 := by simp
        have htot : total = out.length + 1 := by omega
        rw [if_pos hcap]
        have hcond : total ≤ out.length + (t :: dedupByKeyAux excl ts (trackKey t :: seen)).length := by
          simp only [List.length_cons]
          omega
        rw [if_pos hcond]
        have htake : (t :: dedupByKeyAux excl ts (trackKey t :: seen)).take (total - out.length)
            = [t] := by
          rw [show total - out.length = 1 by omega]
          rfl
        rw [htake]
      · have hlt : (out ++ [t]).length < total := Nat.not_le.mp hcap
        rw [if_neg hcap]
        rw [mergeDedupEarly_spec excl total ts (trackKey t :: seen) (out ++ [t]) hlt]
        have hlen : (out ++ [t]).length = out.length + 1 := by simp
        by_cases hc2 : total ≤ out.length + (t :: dedupByKeyAux excl ts (trackKey t :: seen)).length
        · have hc1 : total ≤ (out ++ [t]).length + (dedupByKeyAux excl ts (trackKey t :: seen)).length := by
            simp only [List.length_cons] at hc2
            omega
          rw [if_pos hc1, if_pos hc2]
          have htake : (t :: dedupByKeyAux excl ts (trackKey t :: seen)).take (total - out.length)
              = t :: (dedupByKeyAux excl ts (trackKey t :: seen)).take (total - (out ++ [t]).length) := by
            have h1 : total - out.length = (total - (out ++ [t]).length) + 1 := by omega
            rw [h1]
            rfl
          rw [htake]
          simp
        · have hc1 : ¬ total ≤ (out ++ [t]).length + (dedupByKeyAux excl ts (trackKey t :: seen)).length := by
            simp only [List.length_cons] at hc2
            omega
          rw [if_neg hc1, if_neg hc2]
          simp

/-- The Combiner in closed form: when the deduplicated pool reaches the
target size the (unshuffled) prefix is returned, otherwise the whole pool
is shuffled. -/
theorem combine_closed_form (personal moodTracks : List Track) (excl : List String)
    (total : Nat) (rand : Nat → Nat) (h : 1 ≤ total) :
    combinePersonalAndMoodTracks personal moodTracks excl total rand =
      (if total ≤ (dedupByKey excl (personal ++ moodTracks)).length then
        (dedupByKey excl (personal ++ moodTracks)).take total
      else fisherYates rand (dedupByKey excl (personal ++ moodTracks))) := by
  unfold combinePersonalAndMoodTracks dedupByKey
  rw [mergeDedupEarly_spec excl total (personal ++ moodTracks) [] [] (by simpa using h)]
  by_cases hc : total ≤ (dedupByKeyAux excl (personal ++ moodTracks) []).length
  · rw [if_pos (by simpa using hc), if_pos hc]
    simp
  · rw [if_neg (by simpa using hc), if_neg hc]
    simp

/-! ### C6: the Combiner shuffles only under-target pools. -/

/-- A first concrete track for the combiner/dedup scenarios. -/
def trackAbc : Track := ⟨"Abc", "X", "", none, none, none, [], none, none⟩

/-- A second track equal to the first up to letter case. -/
def trackLow : Track := ⟨"abc", "x", "", none, none, none, [], none, none⟩

/-- A third, unrelated track. -/
def trackCcc : Track := ⟨"ccc", "Y", "", none, none, none, [], none, none⟩

/-- A deterministic injected random source always choosing index 0. -/
def randZero : Nat → Nat := fun _ => 0

/-- C6 counterexample: with three distinct tracks and target count 2, the
Combiner returns the first two merged tracks unshuffled (the merge loop
returns early at the target size, route.ts line 814), which differs from
shuffling the merged deduplicated pool and then truncating as the claim
requires. -/
theorem combine_shuffle_claim_counterexample :
    combinePersonalAndMoodTracks [trackAbc, trackLow, trackCcc] [] [] 2 randZero ≠
      (fisherYates randZero (dedupByKey [] ([trackAbc, trackLow, trackCcc] ++ []))).take 2 := by
  decide

/-- C6 (amended): the Combiner merges with earlier lists preferred,
removing exclusions and duplicate keys during the merge; as soon as the
deduplicated pool reaches the target count it returns that prefix
unshuffled, and only a pool smaller than the target count is shuffled
(Fisher-Yates with the injected random source) — no truncation happens
after the shuffle. -/
theorem combine_merge_dedup_shuffle (personal moodTracks : List Track)
    (excl : List String) (total : Nat) (rand : Nat → Nat) (h : 1 ≤ total) :
    combinePersonalAndMoodTracks personal moodTracks excl total rand =
      (if total ≤ (dedupByKey excl (personal ++ moodTracks)).length then
        (dedupByKey excl (personal ++ moodTracks)).take total
      else fisherYates rand (dedupByKey excl (personal ++ moodTracks))) :=
  combine_closed_form personal moodTracks excl total rand h

theorem combine_merge_dedup_shuffle_witness :
    combinePersonalAndMoodTracks [trackAbc, trackLow, trackCcc] [] [] 2 randZero =
      (dedupByKey [] ([trackAbc, trackLow, trackCcc] ++ [])).take 2 := by
  have h := combine_merge_dedup_shuffle [trackAbc, trackLow, trackCcc] [] [] 2 randZero
    (by norm_num)
  rw [h]
  decide

/-! ### C2: deduplication of the emitted list. -/

theorem appendCapped_nodup (cap : Nat) :
    ∀ (cands : List Track) (seenK : List String) (list : List Track),
    (list.map trackKey).Nodup → (∀ k ∈ list.map trackKey, k ∈ seenK) →
    ((appendCapped cap cands seenK list).map trackKey).Nodup
  | [], seenK, list, h1, _ => by simpa [appendCapped] using h1
  | t :: ts, seenK, list, h1, h2 => by
    by_cases h : trackKey t ∈ seenK
    · simp only [appendCapped, if_pos h]
      exact appendCapped_nodup cap ts seenK list h1 h2
    · simp only [appendCapped, if_neg h]
      have hnotin : trackKey t ∉ list.map trackKey := fun hmem => h (h2 _ hmem)
      have h1' : ((list ++ [t]).map trackKey).Nodup := by
        rw [List.map_append]
        rw [List.nodup_append]
        refine ⟨h1, List.nodup_singleton _, ?_⟩
        intro a ha hb
        simp only [List.map_cons, List.map_nil, List.mem_singleton] at hb
        subst hb
        exact hnotin ha
      by_cases hcap : cap ≤ (list ++ [t]).length
      · simp only [if_pos hcap]
        exact h1'
      · simp only [if_neg hcap]
        refine appendCapped_nodup cap ts (trackKey t :: seenK) (list ++ [t]) h1' ?_
        intro k hk
        rw [List.map_append] at hk
        rcases List.mem_append.mp hk with hk1 | hk2
        · exact List.mem_cons_of_mem _ (h2 _ hk1)
        · simp only [List.map_cons, List.map_nil, List.mem_singleton] at hk2
          subst hk2
          exact List.mem_cons_self _ _

theorem combine_nodup_25 (results : List Track) (rand : Nat → Nat) :
    ((combinePersonalAndMoodTracks results [] [] 25 rand).map trackKey).Nodup := by
  rw [combine_closed_form results [] [] 25 rand (by norm_num)]
  have hpool := dedupByKey_nodup [] (results ++ [])
  by_cases hc : 25 ≤ (dedupByKey [] (results ++ [])).length
  · rw [if_pos hc]
    rw [List.map_take]
    exact hpool.sublist (List.take_sublist _ _)
  · rw [if_neg hc]
    have hperm := (fisherYates_perm rand (dedupByKey [] (results ++ []))).map trackKey
    exact hperm.symm.nodup hpool

/-- C2 (amended): the final emitted track list contains no two entries
with equal RAW `title@@artist` keys — and hence no two entries whose
(title, artist) pairs are equal verbatim; the pipeline's deduplication
compares keys exactly, without trimming or case folding. -/
theorem emittedTracks_no_duplicate_keys (results : List Track) (rand : Nat → Nat)
    (env : ScoringEnv) (langCandidates : List Track) :
    ((emittedTracks results rand env langCandidates).map trackKey).Nodup ∧
    (emittedTracks results rand env langCandidates).Pairwise
      (fun a b => ¬ (a.title = b.title ∧ a.artist = b.artist)) := by
  have key : ∀ l : List Track, (l.map trackKey).Nodup →
      (((scoreByFormula l env.features env.taste env.mood env.lang env.agm env.custom).take
        (max 10 (min 15 (scoreByFormula l env.features env.taste env.mood env.lang env.agm
          env.custom).length))).map trackKey).Nodup := by
    intro l hl
    have hperm := (scoreByFormula_perm_helper l env.features env.taste env.mood env.lang
      env.agm env.custom).map trackKey
    have hr := hperm.symm.nodup hl
    rw [List.map_take]
    exact hr.sublist (List.take_sublist _ _)
  have hfinal : ((emittedTracks results rand env langCandidates).map trackKey).Nodup := by
    unfold emittedTracks
    apply key
    have hfilter : (((combinePersonalAndMoodTracks results [] [] 25 rand).filter
        (langFilterPred env.lang env.agm)).map trackKey).Nodup :=
      (combine_nodup_25 results rand).sublist ((List.filter_sublist _).map trackKey)
    split
    · exact appendCapped_nodup 15 langCandidates _ _ hfilter (fun k hk => hk)
    · exact hfilter
  refine ⟨hfinal, ?_⟩
  have hp : (emittedTracks results rand env langCandidates).Pairwise
      (fun a b => trackKey a ≠ trackKey b) := List.pairwise_map.mp hfinal
  refine hp.imp ?_
  intro a b hab hcond
  exact hab (by rw [trackKey, trackKey, hcond.1, hcond.2])

/-- The empty taste profile of an anonymous request. -/
def anonTaste : TasteProfile := ⟨[], [], [], [], [], [], []⟩

/-- The scoring environment of an anonymous request with no language
constraint (empty feature/genre maps, empty taste profile). -/
def envAnon : ScoringEnv :=
  ⟨[], anonTaste, "Happy", Lang.any, [], none⟩

/-- C2 counterexample: two tracks equal up to letter case survive the
whole final stage side by side — the pipeline deduplicates by the raw
`title@@artist` key, so their NORMALIZED (trimmed, case-insensitive)
(title, artist) pairs coincide in the emitted list, contradicting the
claim. -/
theorem emittedTracks_normalized_dup_counterexample :
    trackAbc ∈ emittedTracks [trackAbc, trackLow] randZero envAnon [] ∧
    trackLow ∈ emittedTracks [trackAbc, trackLow] randZero envAnon [] ∧
    trackAbc ≠ trackLow ∧ normPair trackAbc = normPair trackLow := by
  have hs : trackScore [] anonTaste (resolveTargets "Happy" none) Lang.any [] trackAbc =
      trackScore [] anonTaste (resolveTargets "Happy" none) Lang.any [] trackLow := rfl
  have hsort : List.insertionSort byScoreDesc
      [(trackLow, trackScore [] anonTaste (resolveTargets "Happy" none) Lang.any [] trackLow),
        (trackAbc, trackScore [] anonTaste (resolveTargets "Happy" none) Lang.any [] trackAbc)] =
      [(trackLow, trackScore [] anonTaste (resolveTargets "Happy" none) Lang.any [] trackLow),
        (trackAbc, trackScore [] anonTaste (resolveTargets "Happy" none) Lang.any [] trackAbc)] := by
    show List.orderedInsert byScoreDesc
      (trackLow, trackScore [] anonTaste (resolveTargets "Happy" none) Lang.any [] trackLow)
      [(trackAbc, trackScore [] anonTaste (resolveTargets "Happy" none) Lang.any [] trackAbc)] = _
    have hcond : byScoreDesc
        (trackLow, trackScore [] anonTaste (resolveTargets "Happy" none) Lang.any [] trackLow)
        (trackAbc, trackScore [] anonTaste (resolveTargets "Happy" none) Lang.any [] trackAbc) :=
      le_of_eq hs
    show (if byScoreDesc
        (trackLow, trackScore [] anonTaste (resolveTargets "Happy" none) Lang.any [] trackLow)
        (trackAbc, trackScore [] anonTaste (resolveTargets "Happy" none) Lang.any [] trackAbc) then
        _ else _) = _
    rw [if_pos hcond]
  have hformula : scoreByFormula [trackLow, trackAbc] [] anonTaste "Happy" Lang.any [] none =
      [trackLow, trackAbc] := by
    show (List.insertionSort byScoreDesc
      [(trackLow, trackScore [] anonTaste (resolveTargets "Happy" none) Lang.any [] trackLow),
        (trackAbc, trackScore [] anonTaste (resolveTargets "Happy" none) Lang.any []
          trackAbc)]).map Prod.fst = [trackLow, trackAbc]
    rw [hsort]
    rfl
  have hemit : emittedTracks [trackAbc, trackLow] randZero envAnon [] =
      [trackLow, trackAbc] := by
    show (scoreByFormula [trackLow, trackAbc] [] anonTaste "Happy" Lang.any [] none).take
      (max 10 (min 15
        (scoreByFormula [trackLow, trackAbc] [] anonTaste "Happy" Lang.any [] none).length)) =
      [trackLow, trackAbc]
    rw [hformula]
    rfl
  rw [hemit]
  refine ⟨by decide, by decide, by decide, by decide⟩

/-! ### C3: error propagation of the POST handler. -/

theorem searchMultiLoop_capped (cap : Nat) (l : List (Except Unit HttpResp))
    (seen : List String) (out : List Track) (h : cap ≤ out.length) :
    searchMultiLoop cap l seen out = out := by
  cases l with
  | nil => rfl
  | cons o os => simp [searchMultiLoop, h]

/-- C3 counterexample: the catalog credentials resolve, the MusicBrainz
search and the taste profile resolve, every candidate search succeeds
with zero results, and the fallback mood search answers HTTP 503 — the
request fails (`ok: false`), because `searchTracks` throws on any
non-2xx response and POST does not catch it; a non-2xx search response
is therefore NOT absorbed as an empty contribution. -/
theorem postPipeline_fallback_503_counterexample :
    postPipeline (Except.ok ()) (Except.ok ⟨200, []⟩) (Except.ok anonTaste)
      [Except.ok ⟨200, []⟩] [] [] (Except.ok ⟨503, []⟩) randZero envAnon [] =
      Except.error () ∧
    (Except.error () : Except Unit (List Track)).isOk = false := by
  constructor
  · rfl
  · rfl

/-- C3 (amended): the hard failures (`ok:false`) of the request are the
configuration/auth-acquisition error, a retry-exhausted network failure
of the bare MusicBrainz tag search or of the taste-profile fetches
(their `fetchWithRetry` calls rethrow to the top-level catch), and a
failed fallback mood search (thrown fetch error or any non-2xx response
on the `searchTracks` call made when fewer than 10 results were
gathered).  Every other external-fetch failure is absorbed as an empty
contribution: per-query candidate-search errors and non-2xx responses
contribute nothing, and a non-2xx MusicBrainz response only drops the
MusicBrainz-sourced tracks; when the fallible steps above succeed the
request answers ok, and when additionally all candidate searches return
zero results it still answers `ok: true` with an empty-or-fallback-
sourced track list rather than an error. -/
theorem postPipeline_error_propagation :
    (∀ (e : Unit) (mb : Except Unit HttpResp) (taste : Except Unit TasteProfile)
      (cands : List (Except Unit HttpResp)) (anchors mbm : List Track)
      (fb : Except Unit HttpResp) (rand : Nat → Nat) (env : ScoringEnv) (lc : List Track),
      postPipeline (Except.error e) mb taste cands anchors mbm fb rand env lc =
        Except.error e) ∧
    (∀ (e : Unit) (taste : Except Unit TasteProfile) (cands : List (Except Unit HttpResp))
      (anchors mbm : List Track) (fb : Except Unit HttpResp) (rand : Nat → Nat)
      (env : ScoringEnv) (lc : List Track),
      postPipeline (Except.ok ()) (Except.error e) taste cands anchors mbm fb rand env lc =
        Except.error e) ∧
    (∀ (e : Unit) (mbResp : HttpResp) (cands : List (Except Unit HttpResp))
      (anchors mbm : List Track) (fb : Except Unit HttpResp) (rand : Nat → Nat)
      (env : ScoringEnv) (lc : List Track),
      postPipeline (Except.ok ()) (Except.ok mbResp) (Except.error e) cands anchors mbm fb
        rand env lc = Except.error e) ∧
    (∀ (mbResp : HttpResp) (taste : TasteProfile) (cands : List (Except Unit HttpResp))
      (anchors mbm : List Track) (fb : HttpResp) (rand : Nat → Nat) (env : ScoringEnv)
      (lc : List Track), respOk fb = true →
      (postPipeline (Except.ok ()) (Except.ok mbResp) (Except.ok taste) cands anchors mbm
        (Except.ok fb) rand env lc).isOk = true) ∧
    (∀ (cap : Nat) (o : Except Unit HttpResp) (os : List (Except Unit HttpResp)),
      (o = Except.error () ∨ ∃ r, o = Except.ok r ∧ respOk r = false) →
      searchSpotifyTracksMulti (o :: os) cap = searchSpotifyTracksMulti os cap) ∧
    (∀ (mbResp : HttpResp) (taste : TasteProfile) (cands : List (Except Unit HttpResp))
      (anchors mbm : List Track) (fb : Except Unit HttpResp) (rand : Nat → Nat)
      (env : ScoringEnv) (lc : List Track), respOk mbResp = false →
      postPipeline (Except.ok ()) (Except.ok mbResp) (Except.ok taste) cands anchors mbm
        fb rand env lc =
      postPipeline (Except.ok ()) (Except.ok mbResp) (Except.ok taste) cands anchors []
        fb rand env lc) ∧
    (∀ (mbResp : HttpResp) (taste : TasteProfile) (cands : List (Except Unit HttpResp))
      (fb : HttpResp) (rand : Nat → Nat) (env : ScoringEnv) (lc : List Track),
      (∀ o ∈ cands, ∃ r, o = Except.ok r ∧ r.tracks = []) →
      respOk fb = true → fb.tracks = [] →
      postPipeline (Except.ok ()) (Except.ok mbResp) (Except.ok taste) cands [] []
        (Except.ok fb) rand env lc =
        Except.ok (emittedTracks [] rand { env with taste := taste } lc)) := by
  refine ⟨?_, ?_, ?_, ?_, ?_, ?_, ?_⟩
  · intro e mb taste cands anchors mbm fb rand env lc
    rfl
  · intro e taste cands anchors mbm fb rand env lc
    rfl
  · intro e mbResp cands anchors mbm fb rand env lc
    rfl
  · intro mbResp taste cands anchors mbm fb rand env lc hok
    simp only [postPipeline, searchTracksModel, hok, if_pos]
    split <;> split <;> rfl
  · intro cap o os h
    rcases Nat.eq_zero_or_pos cap with hc | hc
    · subst hc
      rw [searchSpotifyTracksMulti, searchSpotifyTracksMulti,
        searchMultiLoop_capped 0 _ [] [] (by simp),
        searchMultiLoop_capped 0 _ [] [] (by simp)]
    · have hno : ¬ cap ≤ (([] : List Track)).length := by
        simp only [List.length_nil]
        omega
      rcases h with rfl | ⟨r, rfl, hr⟩
      · rw [searchSpotifyTracksMulti, searchSpotifyTracksMulti, searchMultiLoop, if_neg hno]
      · rw [searchSpotifyTracksMulti, searchSpotifyTracksMulti, searchMultiLoop, if_neg hno, hr]
        rfl
  · intro mbResp taste cands anchors mbm fb rand env lc hr
    simp [postPipeline, hr]
  · intro mbResp taste cands fb rand env lc hempty hok htracks
    have hmulti : ∀ (cs : List (Except Unit HttpResp)) (seen : List String),
        (∀ o ∈ cs, ∃ r, o = Except.ok r ∧ r.tracks = []) →
        searchMultiLoop 100 cs seen [] = [] := by
      intro cs
      induction cs with
      | nil => intro seen _; rfl
      | cons o os ih =>
        intro seen hall
        rcases hall o (List.mem_cons_self o os) with ⟨r, rfl, hr⟩
        rw [searchMultiLoop, if_neg (by simp)]
        by_cases hrok : respOk r = true
        · rw [hrok, hr]
          show searchMultiLoop 100 os seen [] = []
          exact ih seen (fun o ho => hall o (List.mem_cons_of_mem _ ho))
        · simp only [Bool.not_eq_true] at hrok
          rw [hrok]
          show searchMultiLoop 100 os seen [] = []
          exact ih seen (fun o ho => hall o (List.mem_cons_of_mem _ ho))
    have hsearch : searchSpotifyTracksMulti cands 100 = [] := hmulti cands [] hempty
    simp [postPipeline, hsearch, searchTracksModel, hok, htracks, appendCapped,
      dedupByKey, dedupByKeyAux]

theorem postPipeline_error_propagation_witness :
    postPipeline (Except.error ()) (Except.ok ⟨200, []⟩) (Except.ok anonTaste) [] [] []
      (Except.ok ⟨200, []⟩) randZero envAnon [] = Except.error () ∧
    postPipeline (Except.ok ()) (Except.error ()) (Except.ok anonTaste) [] [] []
      (Except.ok ⟨200, []⟩) randZero envAnon [] = Except.error () ∧
    postPipeline (Except.ok ()) (Except.ok ⟨200, []⟩) (Except.error ()) [] [] []
      (Except.ok ⟨200, []⟩) randZero envAnon [] = Except.error () ∧
    (postPipeline (Except.ok ()) (Except.ok ⟨200, []⟩) (Except.ok anonTaste)
      [Except.ok ⟨200, []⟩] [] [] (Except.ok ⟨200, []⟩) randZero envAnon []).isOk = true ∧
    searchSpotifyTracksMulti [Except.ok ⟨404, []⟩, Except.ok ⟨200, []⟩] 100 =
      searchSpotifyTracksMulti [Except.ok ⟨200, []⟩] 100 ∧
    postPipeline (Except.ok ()) (Except.ok ⟨503, []⟩) (Except.ok anonTaste) [] []
      [trackCcc] (Except.ok ⟨200, []⟩) randZero envAnon [] =
      postPipeline (Except.ok ()) (Except.ok ⟨503, []⟩) (Except.ok anonTaste) [] [] []
        (Except.ok ⟨200, []⟩) randZero envAnon [] ∧
    postPipeline (Except.ok ()) (Except.ok ⟨200, []⟩) (Except.ok anonTaste)
      [Except.ok ⟨200, []⟩] [] [] (Except.ok ⟨200, []⟩) randZero envAnon [] =
      Except.ok (emittedTracks [] randZero { envAnon with taste := anonTaste } []) := by
  have h := postPipeline_error_propagation
  refine ⟨h.1 () (Except.ok ⟨200, []⟩) (Except.ok anonTaste) [] [] []
      (Except.ok ⟨200, []⟩) randZero envAnon [],
    h.2.1 () (Except.ok anonTaste) [] [] [] (Except.ok ⟨200, []⟩) randZero envAnon [],
    h.2.2.1 () ⟨200, []⟩ [] [] [] (Except.ok ⟨200, []⟩) randZero envAnon [],
    h.2.2.2.1 ⟨200, []⟩ anonTaste [Except.ok ⟨200, []⟩] [] [] ⟨200, []⟩
      randZero envAnon [] rfl,
    h.2.2.2.2.1 100 (Except.ok ⟨404, []⟩) [Except.ok ⟨200, []⟩]
      (Or.inr ⟨⟨404, []⟩, rfl, rfl⟩),
    h.2.2.2.2.2.1 ⟨503, []⟩ anonTaste [] [] [trackCcc] (Except.ok ⟨200, []⟩)
      randZero envAnon [] rfl,
    h.2.2.2.2.2.2 ⟨200, []⟩ anonTaste [Except.ok ⟨200, []⟩] ⟨200, []⟩
      randZero envAnon []
      (fun o ho => by
        rcases List.mem_singleton.mp ho with rfl
        exact ⟨⟨200, []⟩, rfl, rfl⟩)
      rfl rfl⟩

/-- A feature record passing the happy gate. -/
def gateFeatW : AudioFeatures := ⟨"t1", some 0.7, some 0.6, none, some 120⟩

/-- A track carrying that feature record's id. -/
def gateTrackW : Track := ⟨"s", "a", "", none, none, some "t1", [], none, none⟩

theorem happyGate_and_expansionTrigger_witness :
    passesHardForMood "happy" gateFeatW = true ∧
    assessMoodCoverage [("t1", gateFeatW)] [gateTrackW] "happy" =
      ((List.countP (trackPassesGate [("t1", gateFeatW)] "happy") [gateTrackW] : ℚ) /
        (([gateTrackW] : List Track).length : ℚ)) := by
  have h := happyGate_and_expansionTrigger gateFeatW [("t1", gateFeatW)] [gateTrackW] "happy" 1
  constructor
  · exact h.1.mpr ⟨0.7, 0.6, 120, rfl, rfl, rfl, by norm_num, by norm_num, by norm_num⟩
  · exact h.2.2 (by decide) (by decide)
